import Mathlib

/-!
Verification of the walker navigation component of the repository:
`PythonAPI/carla/agents/navigation/local_planner_walker.py` (class
`WalkerLocalPlanner`) and `PythonAPI/carla/agents/navigation/walker_agent.py`
(class `WalkerAgent`).

The shallow embedding below mirrors the Python source.  The simulation host
(the `carla` module) is modelled at its interface: a `carla.Location` is a 3D
point whose coordinates we take as exact rationals, its `distance` method is
the Euclidean distance (a real number), and `Vector3D.make_unit_vector`
divides a vector by its Euclidean length.  The walker actor handle is
modelled by the values the planner reads from it during one call: its current
location (`walker.get_location()`) and the scalar speed in Km/h returned by
`get_speed(walker)` from `agents.tools.misc`; both are passed to `run_step`
as explicit arguments.  `collections.deque(maxlen=n)` is modelled by
`LocDeque`: a list of elements together with its capacity, where `append`
evicts the leftmost element once the capacity is reached.
-/

/-- Model of `carla.Location`: a 3D point with exact rational coordinates. -/
structure Location where
  x : ℚ
  y : ℚ
  z : ℚ
deriving DecidableEq, Inhabited

/-- Model of `carla.Vector3D` with rational coordinates, as produced by
subtracting two locations. -/
structure Vector3D where
  x : ℚ
  y : ℚ
  z : ℚ
deriving DecidableEq, Inhabited

/-- Model of a `carla.Vector3D` with real coordinates, as produced by
`make_unit_vector` (whose components are irrational in general). -/
structure RVector3D where
  x : ℝ
  y : ℝ
  z : ℝ

/-- Squared Euclidean distance between two locations (exact rational). -/
def Location.dist2 (a b : Location) : ℚ :=
  (a.x - b.x) ^ 2 + (a.y - b.y) ^ 2 + (a.z - b.z) ^ 2

/-- Model of `carla.Location.distance`: the Euclidean distance. -/
noncomputable def Location.distance (a b : Location) : ℝ :=
  Real.sqrt ((Location.dist2 a b : ℚ) : ℝ)

/-- Model of `carla.Location.__sub__`: componentwise difference, a vector. -/
def Location.sub (a b : Location) : Vector3D :=
  ⟨a.x - b.x, a.y - b.y, a.z - b.z⟩

/-- Model of `carla.Vector3D.length`: the Euclidean norm. -/
noncomputable def Vector3D.length (v : Vector3D) : ℝ :=
  Real.sqrt ((v.x : ℝ) ^ 2 + (v.y : ℝ) ^ 2 + (v.z : ℝ) ^ 2)

/-- Model of `carla.Vector3D.make_unit_vector`: the vector divided by its
Euclidean length. -/
noncomputable def Vector3D.make_unit_vector (v : Vector3D) : RVector3D :=
  ⟨(v.x : ℝ) / Vector3D.length v, (v.y : ℝ) / Vector3D.length v,
   (v.z : ℝ) / Vector3D.length v⟩

/-- Euclidean norm of a real vector (used to state unit-length facts about
the direction returned by `run_step`). -/
noncomputable def RVector3D.length (v : RVector3D) : ℝ :=
  Real.sqrt (v.x ^ 2 + v.y ^ 2 + v.z ^ 2)

theorem Location.dist2_nonneg (a b : Location) : 0 ≤ Location.dist2 a b := by
  unfold Location.dist2; positivity

/-- Comparison of the real distance with a rational threshold, reduced to
rational arithmetic. -/
theorem Location.distance_lt_iff (a b : Location) (r : ℚ) :
    Location.distance a b < (r : ℝ) ↔ 0 < r ∧ Location.dist2 a b < r ^ 2 := by
  unfold Location.distance
  constructor
  · intro h
    have hr : (0 : ℝ) < (r : ℝ) := lt_of_le_of_lt (Real.sqrt_nonneg _) h
    have h2 : ((Location.dist2 a b : ℚ) : ℝ) < (r : ℝ) ^ 2 := (Real.sqrt_lt' hr).mp h
    exact ⟨by exact_mod_cast hr, by exact_mod_cast h2⟩
  · rintro ⟨hr, h2⟩
    have hr' : (0 : ℝ) < (r : ℝ) := by exact_mod_cast hr
    exact (Real.sqrt_lt' hr').mpr (by exact_mod_cast h2)

instance (a b : Location) (r : ℚ) : Decidable (Location.distance a b < (r : ℝ)) :=
  decidable_of_iff _ (Location.distance_lt_iff a b r).symm

/-- Model of `collections.deque(maxlen=c)` holding locations: the elements in
left-to-right order together with the capacity `maxlen`. -/
structure LocDeque where
  elems : List Location
  maxlen : ℕ
deriving DecidableEq

/-- Python `deque.append`: when the deque is full, the leftmost element is
evicted before the new one is appended on the right. -/
def LocDeque.append (d : LocDeque) (w : Location) : LocDeque :=
  if d.elems.length < d.maxlen then ⟨d.elems ++ [w], d.maxlen⟩
  else if d.maxlen = 0 then d
  else ⟨d.elems.tail ++ [w], d.maxlen⟩

/-- Python `deque.clear`: drop all elements, keep the capacity. -/
def LocDeque.clear (d : LocDeque) : LocDeque := ⟨[], d.maxlen⟩

/-- Python `deque.popleft` with the returned element discarded (the source
only pops, it never uses the popped value). -/
def LocDeque.popleft (d : LocDeque) : LocDeque := ⟨d.elems.tail, d.maxlen⟩

/-- The `for _ in range(n): popleft()` loop of `run_step`. -/
def LocDeque.popleftN : ℕ → LocDeque → LocDeque
  | 0, d => d
  | n + 1, d => LocDeque.popleftN n (LocDeque.popleft d)

/-- Model of the PID parameter dictionaries (`{'K_P':…,'K_I':…,'K_D':…,'dt':…}`)
held by the planner; their values are never used by this component. -/
structure PIDDict where
  K_P : ℚ
  K_I : ℚ
  K_D : ℚ
  dt : ℚ
deriving DecidableEq

/-- Model of the `opt_dict` argument of `WalkerLocalPlanner.__init__`: an
optional value for each of the six keys the constructor recognizes, plus
the remaining (unrecognized) key/value pairs, which the constructor never
reads. -/
structure OptDict where
  dt : Option ℚ := none
  target_speed : Option ℚ := none
  lateral_control_dict : Option PIDDict := none
  longitudinal_control_dict : Option PIDDict := none
  base_min_distance : Option ℚ := none
  distance_ratio : Option ℚ := none
  extra : List (String × ℚ) := []

/-- Python truthiness of a dict: `if opt_dict:` is true iff the dict holds at
least one key. -/
def OptDict.isEmpty (d : OptDict) : Bool :=
  d.dt.isNone && d.target_speed.isNone && d.lateral_control_dict.isNone &&
    d.longitudinal_control_dict.isNone && d.base_min_distance.isNone &&
    d.distance_ratio.isNone && d.extra.isEmpty

/-- State of a `WalkerLocalPlanner` (the fields assigned in `__init__` and
`run_step`, minus the host handles `_walker`/`_world`, which are modelled by
the per-call arguments of `run_step`).  `min_distance` models the attribute
`self._min_distance`, which does not exist before the first `run_step` call
(hence the `Option`). -/
structure WalkerLocalPlanner where
  dt : ℚ
  target_speed : ℚ
  args_lateral_dict : PIDDict
  args_longitudinal_dict : PIDDict
  base_min_distance : ℚ
  distance_ratio : ℚ
  target_location : Location
  location_queue : LocDeque
  min_distance : Option ℚ
deriving DecidableEq

/-- Model of `WalkerLocalPlanner.__init__`: defaults, overridden per
recognized key when `opt_dict` is non-empty, and the queue
(`deque(maxlen=100)`) seeded with the walker's current location.  Note the
source builds the default PID dicts with `'dt': self._dt` before any
override runs, so they always use the default `dt = 0.05`. -/
def WalkerLocalPlanner.init (walker_location : Location) (opt_dict : OptDict) :
    WalkerLocalPlanner :=
  let dt0 : ℚ := 0.05
  let target_speed0 : ℚ := 1.0
  let args_lateral0 : PIDDict := ⟨1.95, 0.05, 0.2, dt0⟩
  let args_longitudinal0 : PIDDict := ⟨1.0, 0.05, 0, dt0⟩
  let base_min_distance0 : ℚ := 1.0
  let distance_ratio0 : ℚ := 0.5
  if OptDict.isEmpty opt_dict then
    { dt := dt0, target_speed := target_speed0,
      args_lateral_dict := args_lateral0,
      args_longitudinal_dict := args_longitudinal0,
      base_min_distance := base_min_distance0,
      distance_ratio := distance_ratio0,
      target_location := walker_location,
      location_queue := LocDeque.append ⟨[], 100⟩ walker_location,
      min_distance := none }
  else
    { dt := opt_dict.dt.getD dt0,
      target_speed := opt_dict.target_speed.getD target_speed0,
      args_lateral_dict := opt_dict.lateral_control_dict.getD args_lateral0,
      args_longitudinal_dict :=
        opt_dict.longitudinal_control_dict.getD args_longitudinal0,
      base_min_distance := opt_dict.base_min_distance.getD base_min_distance0,
      distance_ratio := opt_dict.distance_ratio.getD distance_ratio0,
      target_location := walker_location,
      location_queue := LocDeque.append ⟨[], 100⟩ walker_location,
      min_distance := none }

/-- Model of `WalkerLocalPlanner.set_speed`. -/
def WalkerLocalPlanner.set_speed (p : WalkerLocalPlanner) (speed : ℚ) :
    WalkerLocalPlanner :=
  { p with target_speed := speed }

/-- Model of `WalkerLocalPlanner.set_plan`: optionally clear the queue, remake
it with capacity `len(current_plan) + len(queue)` when that exceeds the
current capacity (copying the retained elements in order), then append the
plan elements in order. -/
def WalkerLocalPlanner.set_plan (p : WalkerLocalPlanner)
    (current_plan : List Location) (clean_queue : Bool := true) :
    WalkerLocalPlanner :=
  let q0 := if clean_queue then LocDeque.clear p.location_queue
    else p.location_queue
  let new_plan_length := current_plan.length + q0.elems.length
  let q1 := if q0.maxlen < new_plan_length then
      List.foldl LocDeque.append ⟨[], new_plan_length⟩ q0.elems
    else q0
  let q2 := List.foldl LocDeque.append q1 current_plan
  { p with location_queue := q2 }

/-- The waypoint-purging loop of `WalkerLocalPlanner.run_step`: scanning the
queue from the front, count consecutive waypoints closer to the walker than
the applicable radius (the fixed radius `1` for the last remaining waypoint,
`dyn` otherwise), stopping at the first waypoint that fails the test.
`qlen` is the (unchanging) queue length read by `len(self._location_queue)`
and `num` is the running value of `num_location_removed`. -/
def prune_scan (walker_location : Location) (dyn : ℚ) (qlen : ℕ) :
    List Location → ℕ → ℕ
  | [], num => num
  | tl :: rest, num =>
    let min_distance : ℚ := if qlen - num = 1 then 1 else dyn
    if Location.distance walker_location tl < (min_distance : ℝ) then
      prune_scan walker_location dyn qlen rest (num + 1)
    else num

/-- Movement command returned by `run_step`: direction, speed and jump flag
of a `carla.WalkerControl` (whose defaults are direction `(1, 0, 0)`, speed
`0`, no jump; the source leaves every field it does not assign at its
default). -/
structure WalkerControl where
  direction : RVector3D
  speed : ℚ
  jump : Bool

/-- Model of `WalkerLocalPlanner.run_step`.  `walker_location` models
`self._walker.get_location()` (read once per tick) and `walker_speed_kmh`
models the Km/h value returned by `get_speed(self._walker)` from
`agents.tools.misc` (code outside the given sources; its output is taken as
the host-observed speed).  Returns the updated planner state and the
`carla.WalkerControl` command. -/
noncomputable def WalkerLocalPlanner.run_step (p : WalkerLocalPlanner)
    (walker_location : Location) (walker_speed_kmh : ℚ) :
    WalkerLocalPlanner × WalkerControl :=
  let walker_speed := walker_speed_kmh / 3.6
  let min_dist := p.base_min_distance + p.distance_ratio * walker_speed
  let num_location_removed := prune_scan walker_location min_dist
    p.location_queue.elems.length p.location_queue.elems 0
  let q := LocDeque.popleftN num_location_removed p.location_queue
  if q.elems.length = 0 then
    ({ p with
        location_queue := q
        min_distance := some min_dist },
     { direction := ⟨1, 0, 0⟩, speed := 0, jump := false })
  else
    let tl := q.elems.headI
    ({ p with
        location_queue := q
        min_distance := some min_dist
        target_location := tl },
     { direction := Vector3D.make_unit_vector (Location.sub tl walker_location)
       speed := p.target_speed
       jump := false })

/-- Model of `WalkerLocalPlanner.done`: `len(self._location_queue) == 0`. -/
def WalkerLocalPlanner.done (p : WalkerLocalPlanner) : Bool :=
  p.location_queue.elems.length == 0

/-- State of a `WalkerAgent`: its own stored target speed and its
`WalkerLocalPlanner`. -/
structure WalkerAgent where
  target_speed : ℚ
  local_planner : WalkerLocalPlanner

/-- Model of `WalkerAgent.__init__`: stores `target_speed` on the agent and
builds the planner from the walker and `opt_dict` only (the `target_speed`
argument is not forwarded). -/
def WalkerAgent.init (walker_location : Location) (target_speed : ℚ := 1)
    (opt_dict : OptDict := {}) : WalkerAgent :=
  ⟨target_speed, WalkerLocalPlanner.init walker_location opt_dict⟩

/-- Model of `WalkerAgent.set_target_speed`: stores the speed and forwards it
to the planner's `set_speed`. -/
def WalkerAgent.set_target_speed (a : WalkerAgent) (speed : ℚ) : WalkerAgent :=
  { a with
      target_speed := speed
      local_planner := WalkerLocalPlanner.set_speed a.local_planner speed }

/-- Model of `WalkerAgent.set_plan`: forwards to the planner. -/
def WalkerAgent.set_plan (a : WalkerAgent) (plan : List Location)
    (clean_queue : Bool := true) : WalkerAgent :=
  { a with local_planner :=
      WalkerLocalPlanner.set_plan a.local_planner plan clean_queue }

/-- Model of `WalkerAgent.run_step`: forwards to the planner and returns the
planner's command. -/
noncomputable def WalkerAgent.run_step (a : WalkerAgent)
    (walker_location : Location) (walker_speed_kmh : ℚ) :
    WalkerAgent × WalkerControl :=
  let r := WalkerLocalPlanner.run_step a.local_planner walker_location
    walker_speed_kmh
  ({ a with local_planner := r.1 }, r.2)

/-- Model of `WalkerAgent.done`: forwards to the planner. -/
def WalkerAgent.done (a : WalkerAgent) : Bool :=
  WalkerLocalPlanner.done a.local_planner

/-! ### Helper lemmas about the deque model -/

theorem LocDeque.append_of_lt (d : LocDeque) (w : Location)
    (h : d.elems.length < d.maxlen) :
    LocDeque.append d w = ⟨d.elems ++ [w], d.maxlen⟩ := by
  unfold LocDeque.append
  rw [if_pos h]

/-- Appending a list into a deque with enough spare capacity never evicts. -/
theorem LocDeque.foldl_append_of_le (l : List Location) :
    ∀ d : LocDeque, d.elems.length + l.length ≤ d.maxlen →
      List.foldl LocDeque.append d l = ⟨d.elems ++ l, d.maxlen⟩ := by
  induction l with
  | nil =>
    intro d _
    cases d
    simp
  | cons a l ih =>
    intro d h
    simp only [List.length_cons] at h
    have h1 : d.elems.length < d.maxlen := by omega
    rw [List.foldl_cons, LocDeque.append_of_lt d a h1,
      ih ⟨d.elems ++ [a], d.maxlen⟩ (by simp; omega)]
    simp

theorem LocDeque.popleftN_eq (n : ℕ) : ∀ d : LocDeque,
    LocDeque.popleftN n d = ⟨d.elems.drop n, d.maxlen⟩ := by
  induction n with
  | zero =>
    intro d
    cases d
    rfl
  | succ n ih =>
    intro d
    rw [LocDeque.popleftN, ih]
    simp [LocDeque.popleft, ← List.drop_one, List.drop_drop, Nat.add_comm]

/-! ### Helper lemmas about set_plan -/

/-- With `clean_queue = true` the resulting queue holds exactly the plan, and
the capacity grows to the plan's length when that exceeds it. -/
theorem set_plan_clean_queue (p : WalkerLocalPlanner) (P : List Location) :
    (WalkerLocalPlanner.set_plan p P true).location_queue =
      ⟨P, if p.location_queue.maxlen < P.length then P.length
        else p.location_queue.maxlen⟩ := by
  simp only [WalkerLocalPlanner.set_plan, LocDeque.clear, if_true,
    List.length_nil, Nat.add_zero]
  split
  next h =>
    rw [LocDeque.foldl_append_of_le [] ⟨[], P.length⟩ (by simp),
      LocDeque.foldl_append_of_le P ⟨[] ++ [], P.length⟩ (by simp)]
    simp [if_pos h]
  next h =>
    rw [LocDeque.foldl_append_of_le P ⟨[], p.location_queue.maxlen⟩ (by simp; omega)]
    simp [if_neg h]

/-- With `clean_queue = false` the resulting queue is the old contents
followed by the plan, and the capacity grows to the combined length when
that exceeds it. -/
theorem set_plan_append_queue (p : WalkerLocalPlanner) (P : List Location) :
    (WalkerLocalPlanner.set_plan p P false).location_queue =
      ⟨p.location_queue.elems ++ P,
       if p.location_queue.maxlen < P.length + p.location_queue.elems.length
       then P.length + p.location_queue.elems.length
       else p.location_queue.maxlen⟩ := by
  simp only [WalkerLocalPlanner.set_plan, Bool.false_eq_true, if_false]
  by_cases h : p.location_queue.maxlen < P.length + p.location_queue.elems.length
  · rw [if_pos h,
      LocDeque.foldl_append_of_le p.location_queue.elems
        ⟨[], P.length + p.location_queue.elems.length⟩ (by simp),
      LocDeque.foldl_append_of_le P
        ⟨[] ++ p.location_queue.elems, P.length + p.location_queue.elems.length⟩
        (by simp; omega)]
    simp [h]
  · rw [if_neg h, LocDeque.foldl_append_of_le P p.location_queue (by omega)]
    simp [h]

/-! ### Characterization of the pruning scan -/

/-- Head of a dropped suffix, as a `get` of the original list. -/
theorem get_cons_drop (es : List Location) (n : ℕ) (hlt : n < es.length) :
    es.get ⟨n, hlt⟩ :: es.drop (n + 1) = es.drop n := by
  rw [List.get_eq_getElem]
  exact List.getElem_cons_drop es n hlt

/-- The scanning loop of `run_step`, characterized over the original queue
contents `es`: starting at position `n` with counter `n`, it returns the
first position at or after `n` whose waypoint fails its applicable-radius
test (the fixed radius `1` when the waypoint is the last of the queue,
the dynamic radius `dyn` otherwise), or the queue length when every
waypoint from position `n` on passes. -/
theorem prune_scan_spec (wl : Location) (dyn : ℚ) (es : List Location) :
    ∀ (l : List Location) (n : ℕ), n ≤ es.length → es.drop n = l →
      (n ≤ prune_scan wl dyn es.length l n
        ∧ prune_scan wl dyn es.length l n ≤ es.length)
      ∧ (∀ i (hi : i < es.length), n ≤ i → i < prune_scan wl dyn es.length l n →
          Location.distance wl (es.get ⟨i, hi⟩) <
            Rat.cast (if es.length - i = 1 then (1 : ℚ) else dyn))
      ∧ (∀ hk : prune_scan wl dyn es.length l n < es.length,
          ¬ Location.distance wl (es.get ⟨prune_scan wl dyn es.length l n, hk⟩) <
            Rat.cast (if es.length - prune_scan wl dyn es.length l n = 1 then (1 : ℚ)
              else dyn)) := by
  intro l
  induction l with
  | nil =>
    intro n hn hl
    have hlen : es.length ≤ n := List.drop_eq_nil_iff.mp hl
    simp only [prune_scan]
    refine ⟨⟨le_refl n, hn⟩, ?_, ?_⟩
    · intro i hi h1 h2
      exact absurd (Nat.lt_of_le_of_lt h1 h2) (Nat.lt_irrefl n)
    · intro hk
      exact absurd hk (by omega)
  | cons a l ih =>
    intro n hn hl
    have hlt : n < es.length := by
      by_contra hc
      rw [List.drop_eq_nil_of_le (by omega)] at hl
      exact List.noConfusion hl
    have hcd := get_cons_drop es n hlt
    rw [hl] at hcd
    have ha : es.get ⟨n, hlt⟩ = a := (List.cons.injEq _ _ _ _).mp hcd |>.1
    have hd : es.drop (n + 1) = l := (List.cons.injEq _ _ _ _).mp hcd |>.2
    simp only [prune_scan]
    by_cases hcond :
        Location.distance wl a < Rat.cast (if es.length - n = 1 then (1 : ℚ) else dyn)
    case pos =>
      simp only [if_pos hcond]
      obtain ⟨⟨ih1, ih2⟩, ih3, ih4⟩ := ih (n + 1) (by omega) hd
      refine ⟨⟨by omega, ih2⟩, ?_, ?_⟩
      · intro i hi h1 h2
        rcases Nat.eq_or_lt_of_le h1 with he | hgt
        · subst he
          have hget : es.get ⟨n, hi⟩ = a := by rw [← ha]
          rw [hget]
          exact hcond
        · exact ih3 i hi (by omega) h2
      · intro hk
        exact ih4 hk
    case neg =>
      simp only [if_neg hcond]
      refine ⟨⟨le_refl _, by omega⟩, ?_, ?_⟩
      · intro i hi h1 h2
        exact absurd (Nat.lt_of_le_of_lt h1 h2) (Nat.lt_irrefl n)
      · intro hk
        rw [(by rfl : (⟨n, hk⟩ : Fin es.length) = ⟨n, hlt⟩), ha]
        exact hcond

/-! ### Projection lemmas about run_step -/

/-- Shorthand for the dynamic pruning radius computed by `run_step`. -/
abbrev dynRadius (p : WalkerLocalPlanner) (walker_speed_kmh : ℚ) : ℚ :=
  p.base_min_distance + p.distance_ratio * (walker_speed_kmh / 3.6)

/-- Shorthand for the number of waypoints `run_step` removes. -/
abbrev pruneCount (p : WalkerLocalPlanner) (walker_location : Location)
    (walker_speed_kmh : ℚ) : ℕ :=
  prune_scan walker_location (dynRadius p walker_speed_kmh)
    p.location_queue.elems.length p.location_queue.elems 0

theorem run_step_queue (p : WalkerLocalPlanner) (wl : Location) (kmh : ℚ) :
    (WalkerLocalPlanner.run_step p wl kmh).1.location_queue =
      ⟨p.location_queue.elems.drop (pruneCount p wl kmh),
        p.location_queue.maxlen⟩ := by
  simp only [pruneCount, dynRadius]
  simp only [WalkerLocalPlanner.run_step, LocDeque.popleftN_eq]
  split <;> simp

theorem run_step_min_distance (p : WalkerLocalPlanner) (wl : Location) (kmh : ℚ) :
    (WalkerLocalPlanner.run_step p wl kmh).1.min_distance =
      some (dynRadius p kmh) := by
  simp only [dynRadius]
  simp only [WalkerLocalPlanner.run_step]
  split <;> simp

theorem run_step_stop (p : WalkerLocalPlanner) (wl : Location) (kmh : ℚ)
    (h : p.location_queue.elems.drop (pruneCount p wl kmh) = []) :
    (WalkerLocalPlanner.run_step p wl kmh).2 = ⟨⟨1, 0, 0⟩, 0, false⟩ := by
  simp only [pruneCount, dynRadius] at h
  simp only [WalkerLocalPlanner.run_step, LocDeque.popleftN_eq]
  simp [h]

theorem run_step_go (p : WalkerLocalPlanner) (wl : Location) (kmh : ℚ)
    (h : p.location_queue.elems.drop (pruneCount p wl kmh) ≠ []) :
    (WalkerLocalPlanner.run_step p wl kmh).2 =
      ⟨Vector3D.make_unit_vector (Location.sub
          ((p.location_queue.elems.drop (pruneCount p wl kmh)).headI) wl),
        p.target_speed, false⟩
    ∧ (WalkerLocalPlanner.run_step p wl kmh).1.target_location =
        (p.location_queue.elems.drop (pruneCount p wl kmh)).headI := by
  simp only [pruneCount, dynRadius] at h ⊢
  have hk : prune_scan wl (p.base_min_distance + p.distance_ratio * (kmh / 3.6))
      p.location_queue.elems.length p.location_queue.elems 0 <
      p.location_queue.elems.length := by
    rcases Nat.lt_or_ge (prune_scan wl
        (p.base_min_distance + p.distance_ratio * (kmh / 3.6))
        p.location_queue.elems.length p.location_queue.elems 0)
        p.location_queue.elems.length with h1 | h1
    · exact h1
    · exact absurd (List.drop_eq_nil_of_le h1) h
  have hfact : ¬ p.location_queue.elems.length ≤ prune_scan wl
      (p.base_min_distance + p.distance_ratio * (kmh / 3.6))
      p.location_queue.elems.length p.location_queue.elems 0 := Nat.not_le.mpr hk
  simp only [WalkerLocalPlanner.run_step, LocDeque.popleftN_eq]
  simp [Nat.sub_eq_zero_iff_le, hfact]

/-! ### Helper lemmas about the constructor and the geometry -/

/-- Canonical form of the constructor: whether or not `opt_dict` is empty,
each tunable is the dictionary entry when present and the default otherwise,
and the queue holds exactly the seed location with capacity 100. -/
theorem init_eq (loc : Location) (d : OptDict) :
    WalkerLocalPlanner.init loc d =
      { dt := d.dt.getD 0.05
        target_speed := d.target_speed.getD 1.0
        args_lateral_dict := d.lateral_control_dict.getD ⟨1.95, 0.05, 0.2, 0.05⟩
        args_longitudinal_dict := d.longitudinal_control_dict.getD ⟨1.0, 0.05, 0, 0.05⟩
        base_min_distance := d.base_min_distance.getD 1.0
        distance_ratio := d.distance_ratio.getD 0.5
        target_location := loc
        location_queue := ⟨[loc], 100⟩
        min_distance := none } := by
  have happ : LocDeque.append ⟨[], 100⟩ loc = ⟨[loc], 100⟩ := by
    simp [LocDeque.append]
  simp only [WalkerLocalPlanner.init]
  split
  next h =>
    simp only [OptDict.isEmpty, Bool.and_eq_true, Option.isNone_iff_eq_none,
      List.isEmpty_iff] at h
    obtain ⟨⟨⟨⟨⟨⟨h1, h2⟩, h3⟩, h4⟩, h5⟩, h6⟩, h7⟩ := h
    rw [happ, h1, h2, h3, h4, h5, h6]
    simp
  next h =>
    rw [happ]

/-- A real-distance comparison refuted by rational arithmetic. -/
theorem not_distance_lt (a b : Location) (r : ℚ)
    (h : ¬ (0 < r ∧ Location.dist2 a b < r ^ 2)) :
    ¬ Location.distance a b < (r : ℝ) := fun hc =>
  h ((Location.distance_lt_iff a b r).mp hc)

/-- Normalizing a vector with a positive sum of squares yields a vector of
Euclidean length 1. -/
theorem make_unit_vector_length (v : Vector3D)
    (h : (0 : ℝ) < (v.x : ℝ) ^ 2 + (v.y : ℝ) ^ 2 + (v.z : ℝ) ^ 2) :
    RVector3D.length (Vector3D.make_unit_vector v) = 1 := by
  have hL : (0 : ℝ) < Vector3D.length v := Real.sqrt_pos.mpr h
  have hL2 : Vector3D.length v ^ 2 = (v.x : ℝ) ^ 2 + (v.y : ℝ) ^ 2 + (v.z : ℝ) ^ 2 :=
    Real.sq_sqrt h.le
  show Real.sqrt (((v.x : ℝ) / Vector3D.length v) ^ 2 +
      ((v.y : ℝ) / Vector3D.length v) ^ 2 +
      ((v.z : ℝ) / Vector3D.length v) ^ 2) = 1
  have hsum : ((v.x : ℝ) / Vector3D.length v) ^ 2 +
      ((v.y : ℝ) / Vector3D.length v) ^ 2 +
      ((v.z : ℝ) / Vector3D.length v) ^ 2 = 1 := by
    field_simp
    rw [hL2]
  rw [hsum, Real.sqrt_one]

/-- The sum of squares of the displacement vector equals the squared
distance. -/
theorem dist2_sub_cast (t wl : Location) :
    ((Location.sub t wl).x : ℝ) ^ 2 + ((Location.sub t wl).y : ℝ) ^ 2 +
      ((Location.sub t wl).z : ℝ) ^ 2 = ((Location.dist2 wl t : ℚ) : ℝ) := by
  simp only [Location.sub, Location.dist2]
  push_cast
  ring

/-- Distances are square roots, hence nonnegative. -/
theorem Location.distance_nonneg (a b : Location) : 0 ≤ Location.distance a b :=
  Real.sqrt_nonneg _

/-- A real-distance lower bound established by rational arithmetic. -/
theorem distance_ge (a b : Location) (r : ℚ) (h : r ^ 2 ≤ Location.dist2 a b) :
    (r : ℝ) ≤ Location.distance a b := by
  rcases le_or_lt (r : ℝ) 0 with h0 | h0
  · exact le_trans h0 (Location.distance_nonneg a b)
  · unfold Location.distance
    rw [Real.le_sqrt' h0]
    exact_mod_cast h

/-! ### Claim theorems -/

/-- C1: `run_step` removes exactly the longest consecutive prefix of
waypoints whose distance to the actor is strictly below the applicable
pruning radius, scanning from the front and stopping at the first waypoint
that fails the threshold; the radius applied to a waypoint is the fixed
value `1.0` when that waypoint is the last one remaining (queue length
minus the removal count equals one — in particular, with exactly one
waypoint left the radius is `1.0` regardless of the dynamic radius), and
otherwise the dynamic radius. -/
theorem C1_run_step_prunes_longest_prefix (p : WalkerLocalPlanner)
    (wl : Location) (kmh : ℚ) :
    ∃ k, k ≤ p.location_queue.elems.length
      ∧ (WalkerLocalPlanner.run_step p wl kmh).1.location_queue.elems =
          p.location_queue.elems.drop k
      ∧ (∀ i (hi : i < p.location_queue.elems.length), i < k →
          Location.distance wl (p.location_queue.elems.get ⟨i, hi⟩) <
            Rat.cast (if p.location_queue.elems.length - i = 1 then (1 : ℚ)
              else dynRadius p kmh))
      ∧ (∀ hk : k < p.location_queue.elems.length,
          ¬ Location.distance wl (p.location_queue.elems.get ⟨k, hk⟩) <
            Rat.cast (if p.location_queue.elems.length - k = 1 then (1 : ℚ)
              else dynRadius p kmh)) := by
  obtain ⟨⟨hge, hle⟩, hall, hstop⟩ := prune_scan_spec wl (dynRadius p kmh)
    p.location_queue.elems p.location_queue.elems 0 (Nat.zero_le _) rfl
  refine ⟨pruneCount p wl kmh, hle, ?_, ?_, hstop⟩
  · rw [run_step_queue]
  · intro i hi h2
    exact hall i hi (Nat.zero_le i) h2

/-- C2: `set_plan` with `clean_queue = true` discards the prior queue
contents (including the initial seed location) and leaves exactly the plan,
in order; with the empty plan, `done` is true immediately afterwards. -/
theorem C2_set_plan_clean_replaces (p : WalkerLocalPlanner) (P : List Location) :
    (WalkerLocalPlanner.set_plan p P true).location_queue.elems = P
    ∧ WalkerLocalPlanner.done (WalkerLocalPlanner.set_plan p [] true) = true := by
  constructor
  · rw [set_plan_clean_queue]
  · simp [WalkerLocalPlanner.done, set_plan_clean_queue]

/-- C3: `set_plan` with `clean_queue = false` appends the plan after the
existing queue contents, dropping nothing; the capacity is rebuilt to the
combined length exactly when that exceeds it; two consecutive appends keep
both segments in call order. -/
theorem C3_set_plan_appends_without_loss (p : WalkerLocalPlanner)
    (P1 P2 : List Location) :
    (WalkerLocalPlanner.set_plan p P1 false).location_queue.elems =
        p.location_queue.elems ++ P1
    ∧ (WalkerLocalPlanner.set_plan p P1 false).location_queue.maxlen =
        (if p.location_queue.maxlen < P1.length + p.location_queue.elems.length
          then P1.length + p.location_queue.elems.length
          else p.location_queue.maxlen)
    ∧ (WalkerLocalPlanner.set_plan (WalkerLocalPlanner.set_plan p P1 false)
          P2 false).location_queue.elems =
        p.location_queue.elems ++ P1 ++ P2 := by
  refine ⟨?_, ?_, ?_⟩
  · rw [set_plan_append_queue]
  · rw [set_plan_append_queue]
  · rw [set_plan_append_queue, set_plan_append_queue]

/-- C5: `done` is true exactly when the waypoint queue is empty, and a
`run_step` call on a planner whose queue is empty returns a command with
speed `0` and leaves the queue empty (so every subsequent call does the
same until a new plan is set); there is no other termination condition. -/
theorem C5_done_iff_empty_and_stop (p p2 : WalkerLocalPlanner) (m : ℕ)
    (wl : Location) (kmh : ℚ) :
    (WalkerLocalPlanner.done p = true ↔ p.location_queue.elems = [])
    ∧ (WalkerLocalPlanner.run_step { p2 with location_queue := ⟨[], m⟩ }
        wl kmh).2.speed = 0
    ∧ (WalkerLocalPlanner.run_step { p2 with location_queue := ⟨[], m⟩ }
        wl kmh).1.location_queue.elems = []
    ∧ WalkerLocalPlanner.done { p2 with location_queue := ⟨[], m⟩ } = true := by
  refine ⟨?_, ?_, ?_, ?_⟩
  · simp [WalkerLocalPlanner.done]
  · rw [run_step_stop _ _ _ (by simp)]
  · rw [run_step_queue]
    simp
  · simp [WalkerLocalPlanner.done]

/-- C6: `run_step` only removes waypoints from the front: the resulting
queue is a suffix of the queue before the call (it is the old contents with
the first `pruneCount` waypoints dropped), so its length never increases
and no waypoint is re-added, and consumption is FIFO in the order the plan
was appended. -/
theorem C6_run_step_monotonic_fifo (p : WalkerLocalPlanner)
    (wl : Location) (kmh : ℚ) :
    (WalkerLocalPlanner.run_step p wl kmh).1.location_queue.elems.IsSuffix
        p.location_queue.elems
    ∧ (WalkerLocalPlanner.run_step p wl kmh).1.location_queue.elems.length ≤
        p.location_queue.elems.length
    ∧ (WalkerLocalPlanner.run_step p wl kmh).1.location_queue.elems =
        p.location_queue.elems.drop (pruneCount p wl kmh) := by
  rw [run_step_queue]
  exact ⟨List.drop_suffix _ _, by simp, rfl⟩

/-- C7: on every `run_step` call the dynamic pruning radius stored in
`min_distance` equals `base_min_distance + distance_ratio * current_speed`,
where the current speed is the host's Km/h value divided by `3.6`; it is
recomputed from the call's speed alone, whatever the previous state held. -/
theorem C7_dynamic_radius_formula (p : WalkerLocalPlanner)
    (wl : Location) (kmh : ℚ) :
    (WalkerLocalPlanner.run_step p wl kmh).1.min_distance =
      some (p.base_min_distance + p.distance_ratio * (kmh / 3.6)) :=
  run_step_min_distance p wl kmh

/-- C9: the agent is a pure facade over its planner: `set_target_speed`
produces the planner state of `set_speed`, `set_plan` forwards verbatim,
`run_step` returns exactly the planner's command and planner state, and
`done` returns the planner's check. -/
theorem C9_agent_pure_facade (a : WalkerAgent) (s : ℚ) (plan : List Location)
    (cq : Bool) (wl : Location) (kmh : ℚ) :
    (WalkerAgent.set_target_speed a s).local_planner =
        WalkerLocalPlanner.set_speed a.local_planner s
    ∧ (WalkerAgent.set_plan a plan cq).local_planner =
        WalkerLocalPlanner.set_plan a.local_planner plan cq
    ∧ (WalkerAgent.run_step a wl kmh).2 =
        (WalkerLocalPlanner.run_step a.local_planner wl kmh).2
    ∧ (WalkerAgent.run_step a wl kmh).1.local_planner =
        (WalkerLocalPlanner.run_step a.local_planner wl kmh).1
    ∧ WalkerAgent.done a = WalkerLocalPlanner.done a.local_planner :=
  ⟨rfl, rfl, rfl, rfl, rfl⟩

/-- C8: two configuration maps that agree on the six recognized keys yield
identical planner state from the same actor — unrecognized keys are ignored
and have no effect — and in every case the queue is seeded with the actor's
current location, so the planner never starts with an empty queue. -/
theorem C8_config_noninterference (loc : Location) (d1 d2 : OptDict)
    (h1 : d1.dt = d2.dt) (h2 : d1.target_speed = d2.target_speed)
    (h3 : d1.lateral_control_dict = d2.lateral_control_dict)
    (h4 : d1.longitudinal_control_dict = d2.longitudinal_control_dict)
    (h5 : d1.base_min_distance = d2.base_min_distance)
    (h6 : d1.distance_ratio = d2.distance_ratio) :
    WalkerLocalPlanner.init loc d1 = WalkerLocalPlanner.init loc d2
    ∧ (WalkerLocalPlanner.init loc d1).location_queue.elems = [loc] := by
  rw [init_eq, init_eq, h1, h2, h3, h4, h5, h6]
  exact ⟨rfl, rfl⟩

/-- Witness for C8: a dictionary carrying an unrecognized key `junk` gives
the same planner as one without it, and the queue is seeded. -/
theorem C8_config_noninterference_witness :
    WalkerLocalPlanner.init ⟨1, 2, 3⟩
        { target_speed := some 7, extra := [("junk", 9)] } =
      WalkerLocalPlanner.init ⟨1, 2, 3⟩ { target_speed := some 7 }
    ∧ (WalkerLocalPlanner.init ⟨1, 2, 3⟩
        { target_speed := some 7, extra := [("junk", 9)] }).location_queue.elems =
      [⟨1, 2, 3⟩] :=
  C8_config_noninterference ⟨1, 2, 3⟩
    { target_speed := some 7, extra := [("junk", 9)] }
    { target_speed := some 7 } rfl rfl rfl rfl rfl rfl

/-- C10: an agent constructed with a `target_speed` argument but no
`target_speed` key in the configuration map leaves the planner's cruise
speed at its internal default of `1.0`: the constructor stores the speed on
the agent only, and only an explicit `set_target_speed` forwards it. -/
theorem C10_target_speed_not_forwarded (loc : Location) (ts : ℚ) (d : OptDict)
    (h : d.target_speed = none) :
    (WalkerAgent.init loc ts d).local_planner.target_speed = 1
    ∧ (WalkerAgent.init loc ts d).target_speed = ts
    ∧ (WalkerAgent.set_target_speed (WalkerAgent.init loc ts d)
        ts).local_planner.target_speed = ts := by
  refine ⟨?_, rfl, rfl⟩
  show (WalkerLocalPlanner.init loc d).target_speed = 1
  rw [init_eq, h]
  norm_num

/-- Witness for C10: an agent built with speed `5` and an empty
configuration keeps the planner at the default speed `1` until
`set_target_speed` is called. -/
theorem C10_target_speed_not_forwarded_witness :
    (WalkerAgent.init ⟨0, 0, 0⟩ 5 {}).local_planner.target_speed = 1
    ∧ (WalkerAgent.init ⟨0, 0, 0⟩ 5 {}).target_speed = 5
    ∧ (WalkerAgent.set_target_speed (WalkerAgent.init ⟨0, 0, 0⟩ 5 {})
        5).local_planner.target_speed = 5 :=
  C10_target_speed_not_forwarded ⟨0, 0, 0⟩ 5 {} rfl

/-- C4 (amended): whenever the queue is non-empty after a `run_step` call
and the dynamic pruning radius of that call is positive, the returned
command has speed equal to the configured target speed, direction equal to
the normalized vector from the actor location to the new front waypoint,
that direction has Euclidean length 1, and `target_location` is the new
front of the queue.  (Without the positivity hypothesis the front waypoint
can sit at distance 0 and the normalization degenerates, see the
counterexample.) -/
theorem C4_command_shape_unit_direction (p : WalkerLocalPlanner)
    (wl : Location) (kmh : ℚ)
    (hq : (WalkerLocalPlanner.run_step p wl kmh).1.location_queue.elems ≠ [])
    (hr : 0 < dynRadius p kmh) :
    (WalkerLocalPlanner.run_step p wl kmh).2.speed = p.target_speed
    ∧ (WalkerLocalPlanner.run_step p wl kmh).2.direction =
        Vector3D.make_unit_vector (Location.sub
          ((WalkerLocalPlanner.run_step p wl kmh).1.location_queue.elems.headI) wl)
    ∧ (WalkerLocalPlanner.run_step p wl kmh).1.target_location =
        (WalkerLocalPlanner.run_step p wl kmh).1.location_queue.elems.headI
    ∧ RVector3D.length (WalkerLocalPlanner.run_step p wl kmh).2.direction = 1 := by
  have hqe := run_step_queue p wl kmh
  have hdrop : p.location_queue.elems.drop (pruneCount p wl kmh) ≠ [] := by
    intro hc
    apply hq
    rw [hqe, hc]
  obtain ⟨hctrl, htarget⟩ := run_step_go p wl kmh hdrop
  have hk : pruneCount p wl kmh < p.location_queue.elems.length := by
    rcases Nat.lt_or_ge (pruneCount p wl kmh) p.location_queue.elems.length
      with h1 | h1
    · exact h1
    · exact absurd (List.drop_eq_nil_of_le h1) hdrop
  have hhead : (p.location_queue.elems.drop (pruneCount p wl kmh)).headI =
      p.location_queue.elems.get ⟨pruneCount p wl kmh, hk⟩ := by
    rw [← get_cons_drop p.location_queue.elems (pruneCount p wl kmh) hk]
    rfl
  have hstop := (prune_scan_spec wl (dynRadius p kmh) p.location_queue.elems
    p.location_queue.elems 0 (Nat.zero_le _) rfl).2.2 hk
  have hradius : (0 : ℚ) <
      (if p.location_queue.elems.length - pruneCount p wl kmh = 1 then (1 : ℚ)
        else dynRadius p kmh) := by
    split
    · norm_num
    · exact hr
  have hge : Rat.cast
      (if p.location_queue.elems.length - pruneCount p wl kmh = 1 then (1 : ℚ)
        else dynRadius p kmh) ≤
      Location.distance wl
        (p.location_queue.elems.get ⟨pruneCount p wl kmh, hk⟩) :=
    not_lt.mp hstop
  have hdistpos : (0 : ℝ) < Location.distance wl
      (p.location_queue.elems.get ⟨pruneCount p wl kmh, hk⟩) :=
    lt_of_lt_of_le (by exact_mod_cast hradius) hge
  have hd2 : (0 : ℝ) < ((Location.dist2 wl
      (p.location_queue.elems.get ⟨pruneCount p wl kmh, hk⟩) : ℚ) : ℝ) := by
    simp only [Location.distance] at hdistpos
    exact Real.sqrt_pos.mp hdistpos
  refine ⟨?_, ?_, ?_, ?_⟩
  · rw [hctrl]
  · rw [hctrl, hqe]
  · rw [htarget, hqe]
  · rw [hctrl]
    show RVector3D.length (Vector3D.make_unit_vector _) = 1
    apply make_unit_vector_length
    rw [hhead, dist2_sub_cast]
    exact hd2

/-- A reachable planner configured with `base_min_distance = 0` and
`distance_ratio = 0` (the constructor accepts both), whose queue holds the
actor's own position followed by a distant waypoint. -/
def cexPlanner : WalkerLocalPlanner :=
  WalkerLocalPlanner.set_plan
    (WalkerLocalPlanner.init ⟨0, 0, 0⟩
      { base_min_distance := some 0, distance_ratio := some 0 })
    [⟨0, 0, 0⟩, ⟨5, 0, 0⟩] true

/-- Counterexample to C4 as stated: with a zero dynamic radius the actor's
own position survives pruning (0 < 0 fails), the queue stays non-empty, and
the returned direction is the normalization of the zero vector, whose
length is 0, not 1. -/
theorem C4_counterexample :
    (WalkerLocalPlanner.run_step cexPlanner ⟨0, 0, 0⟩ 0).1.location_queue.elems ≠ []
    ∧ ¬ RVector3D.length
        (WalkerLocalPlanner.run_step cexPlanner ⟨0, 0, 0⟩ 0).2.direction = 1 := by
  have hqd : cexPlanner.location_queue = ⟨[⟨0, 0, 0⟩, ⟨5, 0, 0⟩], 100⟩ := by
    unfold cexPlanner
    rw [set_plan_clean_queue, init_eq]
    simp
  have hbase : cexPlanner.base_min_distance = 0 := by
    show (WalkerLocalPlanner.init ⟨0, 0, 0⟩
      { base_min_distance := some 0, distance_ratio := some 0 }).base_min_distance = 0
    rw [init_eq]
    rfl
  have hratio : cexPlanner.distance_ratio = 0 := by
    show (WalkerLocalPlanner.init ⟨0, 0, 0⟩
      { base_min_distance := some 0, distance_ratio := some 0 }).distance_ratio = 0
    rw [init_eq]
    rfl
  have hdyn : dynRadius cexPlanner 0 = 0 := by
    simp only [dynRadius]
    rw [hbase, hratio]
    norm_num
  have hk : pruneCount cexPlanner ⟨0, 0, 0⟩ 0 = 0 := by
    simp only [pruneCount, hdyn, hqd]
    norm_num [prune_scan]
    intro h
    exact absurd h (not_lt.mpr (Location.distance_nonneg _ _))
  have hdrop : cexPlanner.location_queue.elems.drop
      (pruneCount cexPlanner ⟨0, 0, 0⟩ 0) ≠ [] := by
    rw [hk, hqd]
    simp
  obtain ⟨hctrl, _⟩ := run_step_go cexPlanner ⟨0, 0, 0⟩ 0 hdrop
  have hhead : (cexPlanner.location_queue.elems.drop
      (pruneCount cexPlanner ⟨0, 0, 0⟩ 0)).headI = ⟨0, 0, 0⟩ := by
    rw [hk, hqd]
    rfl
  constructor
  · rw [run_step_queue]
    simp [hk, hqd]
  · rw [hctrl]
    show ¬ RVector3D.length (Vector3D.make_unit_vector _) = 1
    rw [hhead]
    have hsub : Location.sub ⟨0, 0, 0⟩ ⟨0, 0, 0⟩ = ⟨0, 0, 0⟩ := by
      simp [Location.sub]
    rw [hsub]
    have hzero : Vector3D.make_unit_vector ⟨0, 0, 0⟩ = ⟨0, 0, 0⟩ := by
      simp [Vector3D.make_unit_vector]
    rw [hzero]
    have hlen : RVector3D.length ⟨0, 0, 0⟩ = 0 := by
      simp [RVector3D.length]
    rw [hlen]
    norm_num

/-- A planner with the default configuration and a single distant waypoint,
used to witness the amended C4. -/
def witPlanner : WalkerLocalPlanner :=
  WalkerLocalPlanner.set_plan (WalkerLocalPlanner.init ⟨0, 0, 0⟩ {})
    [⟨5, 0, 0⟩] true

/-- Witness for the amended C4: with the default configuration (dynamic
radius 1 at speed 0) and one waypoint at distance 5, the queue stays
non-empty and the returned direction has length 1. -/
theorem C4_command_shape_unit_direction_witness :
    (WalkerLocalPlanner.run_step witPlanner ⟨0, 0, 0⟩ 0).1.location_queue.elems ≠ []
    ∧ 0 < dynRadius witPlanner 0
    ∧ RVector3D.length
        (WalkerLocalPlanner.run_step witPlanner ⟨0, 0, 0⟩ 0).2.direction = 1 := by
  have hqd : witPlanner.location_queue = ⟨[⟨5, 0, 0⟩], 100⟩ := by
    unfold witPlanner
    rw [set_plan_clean_queue, init_eq]
    simp
  have hbase : witPlanner.base_min_distance = 1.0 := by
    show (WalkerLocalPlanner.init ⟨0, 0, 0⟩ {}).base_min_distance = 1.0
    rw [init_eq]
    rfl
  have hratio : witPlanner.distance_ratio = 0.5 := by
    show (WalkerLocalPlanner.init ⟨0, 0, 0⟩ {}).distance_ratio = 0.5
    rw [init_eq]
    rfl
  have hr : 0 < dynRadius witPlanner 0 := by
    simp only [dynRadius]
    rw [hbase, hratio]
    norm_num
  have hk : pruneCount witPlanner ⟨0, 0, 0⟩ 0 = 0 := by
    simp only [pruneCount, hqd]
    norm_num [prune_scan]
    exact_mod_cast distance_ge ⟨0, 0, 0⟩ ⟨5, 0, 0⟩ 1 (by norm_num [Location.dist2])
  have hq : (WalkerLocalPlanner.run_step witPlanner ⟨0, 0, 0⟩
      0).1.location_queue.elems ≠ [] := by
    rw [run_step_queue]
    simp [hk, hqd]
  exact ⟨hq, hr,
    (C4_command_shape_unit_direction witPlanner ⟨0, 0, 0⟩ 0 hq hr).2.2.2⟩
